import Mathlib

/-!
# Verification of the BDK `ContentStore` (src/store.rs)

Shallow embedding of the reorg-aware wallet ledger synchronizer.  The
`ContentStore` orchestration code (`src/store.rs`) is embedded faithfully;
the collaborator modules (`crate::wallet`, `crate::db`, `crate::trunk`,
`crate::error`) and the `bitcoin` library types are not part of the given
sources, so they are modelled from the specification's interface contracts
(each such definition is marked `Modelled from the spec:`).  Machine
integers are modelled as `Nat` with explicit `% 2 ^ w` where overflow
matters.  Side effects (storage-transaction writes, commits, wallet
rollback, broadcast) are made explicit as an ordered event trace, and
fallible external calls are driven by explicit fault flags.
-/

/-- Block hashes (sha256d identifiers) are modelled as opaque numerals. -/
abbrev Hash := Nat

/-- Modelled from the spec: a block header carries its own hash identity
(`bitcoin_hash`) and its predecessor's hash (`prev_blockhash`). -/
structure BlockHeader where
  hashVal : Hash
  prev_blockhash : Hash
deriving DecidableEq

/-- `header.bitcoin_hash()` of the bitcoin library: the header's identity. -/
def BlockHeader.bitcoin_hash (h : BlockHeader) : Hash := h.hashVal

/-- A block: a header plus opaque transaction data. -/
structure Block where
  header : BlockHeader
  txdata : List Nat
deriving DecidableEq

/-- Modelled from the spec: a wallet UTXO carries a value (smallest currency
unit) and the hash of its confirming block. -/
structure Utxo where
  value : Nat
  confirming : Hash
deriving DecidableEq

/-- Modelled from the spec: an HD account of the wallet master; it carries
the next-key index and a key generator that may fail (key-derivation
failure); `gen i` returns the address of the key at index `i` if derivable. -/
structure Account where
  keyIndex : Nat
  gen : Nat → Option Nat

/-- Modelled from the spec: the wallet master's accounts, keyed by
`(purpose, index)` pairs identifying receiving/change/funding roles. -/
structure Master where
  accounts : List ((Nat × Nat) × Account)

/-- `master.get(key)`: look up an account by its `(purpose, index)` key. -/
def Master.get (m : Master) (k : Nat × Nat) : Option Account :=
  (m.accounts.find? (fun e => decide (e.1 = k))).map (fun e => e.2)

/-- Write back a mutated account under its `(purpose, index)` key
(the effect of mutating through `master.get_mut(key)`). -/
def Master.set (m : Master) (k : Nat × Nat) (a : Account) : Master :=
  { accounts := m.accounts.map (fun e => if e.1 = k then (k, a) else e) }

/-- Modelled from the spec: `account.next_key()` — allocate the next unused
receiving key: returns its address and advances the key index, or fails if
the key cannot be derived. -/
def Account.next_key (a : Account) : Option (Nat × Account) :=
  (a.gen a.keyIndex).map (fun addr => (addr, { a with keyIndex := a.keyIndex + 1 }))

/-- Modelled from the spec: the wallet state — its UTXO set, its maturity
policy (required confirmation depth), and the HD master accounts. -/
structure Wallet where
  utxos : List Utxo
  maturity : Nat
  master : Master

/-- `wallet.coins()`: the wallet's UTXO set. -/
def Wallet.coins (w : Wallet) : List Utxo := w.utxos

/-- Modelled from the spec: `wallet.balance()` — the sum of all UTXO values
controlled by the wallet, regardless of confirmation depth. -/
def Wallet.balance (w : Wallet) : Nat :=
  (w.utxos.map Utxo.value).sum

/-- Modelled from the spec: one UTXO is mature when its confirming block's
height, looked up through the chain view, satisfies the wallet's maturity
policy relative to the current tip height. -/
def Utxo.mature (u : Utxo) (maturity tip : Nat) (lookup : Hash → Option Nat) : Bool :=
  match lookup u.confirming with
  | some h => decide (h + maturity ≤ tip)
  | none => false

/-- Modelled from the spec: `wallet.available_balance(tip, lookup)` — the sum
restricted to UTXOs whose confirming block height (looked up at call time,
not cached) satisfies the maturity policy relative to the tip height. -/
def Wallet.available_balance (w : Wallet) (tip : Nat) (lookup : Hash → Option Nat) : Nat :=
  ((w.utxos.filter (fun u => u.mature w.maturity tip lookup)).map Utxo.value).sum

/-- Modelled from the spec: the read-only canonical-chain view (`Trunk`);
only the operations the core consumes are kept. -/
structure Trunk where
  len : Nat
  get_height : Hash → Option Nat
  get_tip : Option BlockHeader

/-! ## Script construction (`bitcoin::blockdata::script::Builder`)

The script builder of the bitcoin library, modelled from the spec at the
byte level (`Modelled from the spec:` — scripts are byte sequences; the
opcode constants are the standard Bitcoin script opcodes the spec names). -/

/-- A script is its byte sequence. -/
abbrev Script := List Nat

/-- Modelled from the spec: a script builder accumulates script bytes. -/
abbrev Builder := List Nat

/-- `Builder::new()`: the empty builder. -/
def Builder.new : Builder := []

/-- `builder.push_opcode(op)`: append one opcode byte. -/
def Builder.push_opcode (b : Builder) (op : Nat) : Builder := b ++ [op]

/-- Modelled from the spec: the length-prefix a data push uses — a single
length byte below `OP_PUSHDATA1` (0x4c), otherwise an explicit
`OP_PUSHDATA1/2/4` opcode followed by the little-endian length. -/
def pushPrefix (n : Nat) : List Nat :=
  if n < 0x4c then [n]
  else if n < 0x100 then [0x4c, n]
  else if n < 0x10000 then [0x4d, n % 0x100, n / 0x100]
  else [0x4e, n % 0x100, n / 0x100 % 0x100, n / 0x10000 % 0x100, n / 0x1000000 % 0x100]

/-- `builder.push_slice(data)`: length prefix, then the raw bytes. -/
def Builder.push_slice (b : Builder) (data : List Nat) : Builder :=
  b ++ pushPrefix data.length ++ data

/-- Little-endian magnitude bytes of a script integer: emit low bytes while
more than one byte remains, then the final byte, adding a sign byte when the
top bit of the final magnitude byte would collide with the sign bit. -/
def scriptintCore (abs : Nat) (neg : Bool) : List Nat :=
  if h : abs > 0xFF then
    abs % 256 :: scriptintCore (abs / 256) neg
  else if abs &&& 0x80 ≠ 0 then
    [abs, if neg then 0x80 else 0]
  else
    [abs ||| (if neg then 0x80 else 0)]
termination_by abs
decreasing_by
  exact Nat.div_lt_self (Nat.lt_of_lt_of_le (by norm_num) h) (by norm_num)

/-- `build_scriptint(n)`: minimal signed-magnitude little-endian encoding. -/
def build_scriptint (n : Int) : List Nat :=
  if n = 0 then [] else scriptintCore n.natAbs (decide (n < 0))

/-- `builder.push_int(n)`: `OP_PUSHNUM` for `-1` and `1..=16`, `OP_0` for
zero, otherwise a data push of the script-integer encoding. -/
def Builder.push_int (b : Builder) (n : Int) : Builder :=
  if n = -1 ∨ (1 ≤ n ∧ n ≤ 16) then b.push_opcode (n - 1 + 0x51).toNat
  else if n = 0 then b.push_opcode 0x00
  else b.push_slice (build_scriptint n)

/-- `builder.into_script()`: the accumulated bytes. -/
def Builder.into_script (b : Builder) : Script := b

/-- `OP_CSV` (`OP_CHECKSEQUENCEVERIFY`). -/
def opCSV : Nat := 0xb2
/-- `OP_DROP`. -/
def opDROP : Nat := 0x75
/-- `OP_CHECKSIG`. -/
def opCHECKSIG : Nat := 0xac

/-- Modelled from the spec: a public key, carried as its serialized bytes
(33 bytes for a compressed key). -/
structure PublicKey where
  bytes : List Nat
deriving DecidableEq

/-- `pk.to_bytes()`: the key's serialization. -/
def PublicKey.to_bytes (pk : PublicKey) : List Nat := pk.bytes

/-! ## SHA-256 and P2WSH addresses

Modelled from the spec: the witness-script-hash address commits to the
SHA-256 digest of the script bytes.  The digest is implemented as the
standard SHA-256 over byte lists, with 32-bit words as `Nat` reduced
`% 2 ^ 32`. -/

/-- 32-bit right rotation. -/
def rotr32 (x n : Nat) : Nat := ((x >>> n) ||| (x <<< (32 - n))) % 4294967296

/-- SHA-256 big sigma 0. -/
def bsig0 (x : Nat) : Nat := rotr32 x 2 ^^^ rotr32 x 13 ^^^ rotr32 x 22
/-- SHA-256 big sigma 1. -/
def bsig1 (x : Nat) : Nat := rotr32 x 6 ^^^ rotr32 x 11 ^^^ rotr32 x 25
/-- SHA-256 small sigma 0. -/
def ssig0 (x : Nat) : Nat := rotr32 x 7 ^^^ rotr32 x 18 ^^^ (x >>> 3)
/-- SHA-256 small sigma 1. -/
def ssig1 (x : Nat) : Nat := rotr32 x 17 ^^^ rotr32 x 19 ^^^ (x >>> 10)
/-- SHA-256 choice function. -/
def shaCh (x y z : Nat) : Nat := (x &&& y) ^^^ ((x ^^^ 0xFFFFFFFF) &&& z)
/-- SHA-256 majority function. -/
def shaMaj (x y z : Nat) : Nat := (x &&& y) ^^^ (x &&& z) ^^^ (y &&& z)

/-- SHA-256 round constants (decimal). -/
def shaK : List Nat :=
  [1116352408, 1899447441, 3049323471, 3921009573, 961987163,
   1508970993, 2453635748, 2870763221, 3624381080, 310598401,
   607225278, 1426881987, 1925078388, 2162078206, 2614888103,
   3248222580, 3835390401, 4022224774, 264347078, 604807628,
   770255983, 1249150122, 1555081692, 1996064986, 2554220882,
   2821834349, 2952996808, 3210313671, 3336571891, 3584528711,
   113926993, 338241895, 666307205, 773529912, 1294757372,
   1396182291, 1695183700, 1986661051, 2177026350, 2456956037,
   2730485921, 2820302411, 3259730800, 3345764771, 3516065817,
   3600352804, 4094571909, 275423344, 430227734, 506948616,
   659060556, 883997877, 958139571, 1322822218, 1537002063,
   1747873779, 1955562222, 2024104815, 2227730452, 2361852424,
   2428436474, 2756734187, 3204031479, 3329325298]

/-- SHA-256 initial hash state (decimal). -/
def shaH0 : List Nat :=
  [1779033703, 3144134277, 1013904242, 2773480762,
   1359893119, 2600822924, 528734635, 1541459225]

/-- Group bytes into big-endian 32-bit words. -/
def bytesToWords : List Nat → List Nat
  | a :: b :: c :: d :: rest => (((a * 256 + b) * 256 + c) * 256 + d) :: bytesToWords rest
  | _ => []

/-- The 8-byte big-endian encoding of the bit length. -/
def lenBytes (n : Nat) : List Nat :=
  [n >>> 56 % 256, n >>> 48 % 256, n >>> 40 % 256, n >>> 32 % 256,
   n >>> 24 % 256, n >>> 16 % 256, n >>> 8 % 256, n % 256]

/-- SHA-256 message padding to a multiple of 64 bytes. -/
def shaPad (msg : List Nat) : List Nat :=
  msg ++ [0x80] ++ List.replicate ((119 - msg.length % 64) % 64) 0 ++ lenBytes (msg.length * 8)

/-- Extend 16 message words to the 64-entry message schedule. -/
def shaSchedule (w16 : Array Nat) : Array Nat :=
  (List.range 48).foldl
    (fun w _ =>
      let i := w.size
      w.push ((ssig1 (w.getD (i - 2) 0) + w.getD (i - 7) 0 +
               ssig0 (w.getD (i - 15) 0) + w.getD (i - 16) 0) % 4294967296))
    w16

/-- The 64-round SHA-256 compression of one block, added into the state. -/
def shaCompress (hs : List Nat) (w : Array Nat) : List Nat :=
  let fin := (List.range 64).foldl
    (fun st i =>
      let a := st.getD 0 0
      let b := st.getD 1 0
      let c := st.getD 2 0
      let d := st.getD 3 0
      let e := st.getD 4 0
      let f := st.getD 5 0
      let g := st.getD 6 0
      let hh := st.getD 7 0
      let t1 := (hh + bsig1 e + shaCh e f g + shaK.getD i 0 + w.getD i 0) % 4294967296
      let t2 := (bsig0 a + shaMaj a b c) % 4294967296
      [(t1 + t2) % 4294967296, a, b, c, (d + t1) % 4294967296, e, f, g])
    hs
  List.zipWith (fun x y => (x + y) % 4294967296) hs fin

/-- Split a byte list into 64-byte blocks. -/
def shaBlocks (bs : List Nat) : List (List Nat) :=
  if bs = [] then []
  else bs.take 64 :: shaBlocks (bs.drop 64)
termination_by bs.length
decreasing_by
  rename_i h
  have hlen : 0 < bs.length := List.length_pos.mpr h
  simp [List.length_drop]
  omega

/-- SHA-256 of a byte list, as 32 big-endian digest bytes. -/
def sha256 (msg : List Nat) : List Nat :=
  let hs := (shaBlocks (shaPad msg)).foldl
    (fun hs blk => shaCompress hs (shaSchedule (Array.mk (bytesToWords blk)))) shaH0
  hs.foldr (fun w acc => [w >>> 24 % 256, w >>> 16 % 256, w >>> 8 % 256, w % 256] ++ acc) []

/-- The bitcoin network a payload is addressed for. -/
inductive Network where
  | bitcoin
  | testnet
  | regtest
deriving DecidableEq

/-- Modelled from the spec: an address — a network tag plus a witness
program (version and program bytes). -/
structure Address where
  network : Network
  witnessVersion : Nat
  program : List Nat
deriving DecidableEq

/-- Modelled from the spec: `Address::p2wsh(script, network)` — the
pay-to-witness-script-hash address of a script: witness version 0, program
the SHA-256 digest of the script bytes. -/
def Address.p2wsh (script : Script) (network : Network) : Address :=
  { network := network, witnessVersion := 0, program := sha256 script }

/-! ## Durable store, errors, results, events -/

/-- The typed error of `crate::error` (not in the given sources).
Modelled from the spec: storage failures and wallet failures. -/
inductive Error where
  | storage
  | wallet (code : Nat)
deriving DecidableEq

/-- The outcome of an operation: the Rust `Ok`, the Rust `Err`, or a panic
raised by `unwrap`/`expect`. -/
inductive RunResult (α : Type) where
  | ok : α → RunResult α
  | err : Error → RunResult α
  | panicked : String → RunResult α
deriving DecidableEq

/-- Funding metadata attached to an outgoing transaction record:
`(funder key, id, term)`. -/
abbrev FundingMeta := Nat × Nat × Nat

/-- Modelled from the spec: the durable store's committed contents — the
processed-block marker, the persisted UTXO set, persisted account
snapshots, and outgoing-transaction records. -/
structure DbState where
  processed : Option Hash
  coins : List Utxo
  accounts : List ((Nat × Nat) × Account)
  txouts : List (Nat × Option FundingMeta)

/-- Modelled from the spec: a pending storage transaction — writes staged
since `db.transaction()`, atomically visible only at `commit()`. -/
structure Txn where
  coins : Option (List Utxo)
  processed : Option Hash
  accounts : List ((Nat × Nat) × Account)
  txouts : List (Nat × Option FundingMeta)

/-- The freshly begun (empty) storage transaction. -/
def Txn.empty : Txn :=
  { coins := none, processed := none, accounts := [], txouts := [] }

/-- `tx.commit()`: apply every staged write to the durable state at once. -/
def Txn.apply (t : Txn) (db : DbState) : DbState :=
  { processed := match t.processed with | some h => some h | none => db.processed
    coins := match t.coins with | some c => c | none => db.coins
    accounts := db.accounts ++ t.accounts
    txouts := db.txouts ++ t.txouts }

/-- Fault injection for the durable store: whether each kind of staged
write fails (spec: storage failures are I/O or constraint violations). -/
structure DbFaults where
  account_fault : Bool
  coins_fault : Bool
  processed_fault : Bool
  txout_fault : Bool

/-- The externally visible actions of one `ContentStore` operation,
in order of occurrence. -/
inductive Event where
  | txBegin
  | storeCoins (coins : List Utxo)
  | storeProcessed (h : Hash)
  | storeAccount (purpose idx : Nat)
  | storeTxout (t : Nat)
  | txCommit
  | walletRollback (h : Hash)
  | broadcastTx (t : Nat)
deriving DecidableEq

/-! ## The `ContentStore` (src/store.rs) -/

/-- The distributed content storage of `src/store.rs`: trunk view, durable
store (committed state plus its fault behavior), wallet, optional outbound
broadcast channel, and the `stopped` flag. -/
structure ContentStore where
  trunk : Trunk
  db : DbState
  faults : DbFaults
  wallet : Wallet
  txout : Option Nat
  stopped : Bool

/-- `set_stopped` (src/store.rs line 63). -/
def ContentStore.set_stopped (cs : ContentStore) (b : Bool) : ContentStore :=
  { cs with stopped := b }

/-- `get_stopped` (src/store.rs line 67). -/
def ContentStore.get_stopped (cs : ContentStore) : Bool := cs.stopped

/-- `set_tx_sender` (src/store.rs line 71): late-bind the broadcast channel. -/
def ContentStore.set_tx_sender (cs : ContentStore) (ch : Nat) : ContentStore :=
  { cs with txout := some ch }

/-- `balance` (src/store.rs line 75): `[wallet.balance(),
wallet.available_balance(trunk.len(), |h| trunk.get_height(h))]`.  Takes the
store by shared reference in the source and so cannot mutate any state. -/
def ContentStore.balance (cs : ContentStore) : List Nat :=
  [cs.wallet.balance, cs.wallet.available_balance cs.trunk.len cs.trunk.get_height]

/-- `deposit_address` (src/store.rs line 79):
`wallet.master.get_mut((0,0)).expect(..).next_key().expect(..).address`. -/
def ContentStore.deposit_address (cs : ContentStore) :
    RunResult Nat × ContentStore × List Event :=
  match Master.get cs.wallet.master (0, 0) with
  | none => (RunResult.panicked "can not find 0/0 account", cs, [])
  | some acct =>
    match acct.next_key with
    | none => (RunResult.panicked "can not generate receiver address in 0/0", cs, [])
    | some (addr, acct1) =>
      (RunResult.ok addr,
       { cs with wallet := { cs.wallet with master := cs.wallet.master.set (0, 0) acct1 } },
       [])

/-- `funding_script` (src/store.rs line 99): push-int `term`, `OP_CSV`,
`OP_DROP`, push of the key bytes, `OP_CHECKSIG`. -/
def ContentStore.funding_script (tweaked : PublicKey) (term : Nat) : Script :=
  (((((Builder.new).push_int (Int.ofNat term)).push_opcode opCSV).push_opcode
      opDROP).push_slice tweaked.to_bytes).push_opcode opCHECKSIG |>.into_script

/-- `funding_address` (src/store.rs line 109): P2WSH of the funding script
on the bitcoin network. -/
def ContentStore.funding_address (tweaked : PublicKey) (term : Nat) : Address :=
  Address.p2wsh (ContentStore.funding_script tweaked term) Network.bitcoin

/-- Arguments of `fund` (src/store.rs line 84). -/
structure FundArgs where
  id : Nat
  term : Nat
  amount : Nat
  fee_per_vbyte : Nat
  passphrase : String

/-- The wallet's funding-transaction builder (in the wallet module, not in
the given sources): on success, the built transaction, the tweaked funder
key, the fee paid, and the post-build wallet state. -/
abbrev WalletFund := Wallet → FundArgs → Except Error (Nat × Nat × Nat × Wallet)

/-- `fund` (src/store.rs lines 84-97): wallet builds the transaction (`?`),
one storage transaction stores the `(1,0)` account (`?`, on an account
obtained by `unwrap`) and the outgoing transaction record (`expect` —
panics on storage failure), commits, and only then broadcasts if a channel
is bound. -/
def ContentStore.fund (wfund : WalletFund) (cs : ContentStore) (args : FundArgs) :
    RunResult (Nat × Nat × Nat) × ContentStore × List Event :=
  match wfund cs.wallet args with
  | Except.error e => (RunResult.err e, cs, [])
  | Except.ok (transaction, funder, fee, w1) =>
    let cs1 := { cs with wallet := w1 }
    match Master.get w1.master (1, 0) with
    | none => (RunResult.panicked "unwrap on missing 1/0 account", cs1, [Event.txBegin])
    | some acct =>
      if cs.faults.account_fault then
        (RunResult.err Error.storage, cs1, [Event.txBegin])
      else
        let tx1 := { Txn.empty with accounts := [((1, 0), acct)] }
        if cs.faults.txout_fault then
          (RunResult.panicked "can not store outgoing transaction", cs1,
           [Event.txBegin, Event.storeAccount 1 0])
        else
          let tx2 := { tx1 with txouts := [(transaction, some (funder, args.id, args.term))] }
          let cs2 := { cs1 with db := tx2.apply cs1.db }
          let ev := [Event.txBegin, Event.storeAccount 1 0, Event.storeTxout transaction,
                     Event.txCommit]
          match cs.txout with
          | some _ => (RunResult.ok (transaction, funder, fee), cs2,
                       ev ++ [Event.broadcastTx transaction])
          | none => (RunResult.ok (transaction, funder, fee), cs2, ev)

/-- Arguments of `withdraw` (src/store.rs line 113). -/
structure WithdrawArgs where
  passphrase : String
  address : Nat
  fee_per_vbyte : Nat
  amount : Option Nat

/-- The wallet's withdrawal-transaction builder (in the wallet module, not
in the given sources): on success, the built transaction, the fee paid, and
the post-build wallet state. -/
abbrev WalletWithdraw := Wallet → WithdrawArgs → Except Error (Nat × Nat × Wallet)

/-- `withdraw` (src/store.rs lines 113-125): wallet builds the transaction
(`?`), one storage transaction stores the `(0,1)` account (`?`, on an
account obtained by `unwrap`) and the outgoing transaction record
(`expect` — panics on storage failure), commits, and only then broadcasts
if a channel is bound. -/
def ContentStore.withdraw (wwithdraw : WalletWithdraw) (cs : ContentStore)
    (args : WithdrawArgs) :
    RunResult (Nat × Nat) × ContentStore × List Event :=
  match wwithdraw cs.wallet args with
  | Except.error e => (RunResult.err e, cs, [])
  | Except.ok (transaction, fee, w1) =>
    let cs1 := { cs with wallet := w1 }
    match Master.get w1.master (0, 1) with
    | none => (RunResult.panicked "unwrap on missing 0/1 account", cs1, [Event.txBegin])
    | some acct =>
      if cs.faults.account_fault then
        (RunResult.err Error.storage, cs1, [Event.txBegin])
      else
        let tx1 := { Txn.empty with accounts := [((0, 1), acct)] }
        if cs.faults.txout_fault then
          (RunResult.panicked "can not store outgoing transaction", cs1,
           [Event.txBegin, Event.storeAccount 0 1])
        else
          let tx2 := { tx1 with txouts := [(transaction, none)] }
          let cs2 := { cs1 with db := tx2.apply cs1.db }
          let ev := [Event.txBegin, Event.storeAccount 0 1, Event.storeTxout transaction,
                     Event.txCommit]
          match cs.txout with
          | some _ => (RunResult.ok (transaction, fee), cs2, ev ++ [Event.broadcastTx transaction])
          | none => (RunResult.ok (transaction, fee), cs2, ev)

/-- `get_tip` (src/store.rs line 127): hash of the trunk's tip header. -/
def ContentStore.get_tip (cs : ContentStore) : Option Hash :=
  match cs.trunk.get_tip with
  | some header => some header.bitcoin_hash
  | none => none

/-- The wallet's block scan (in the wallet module, not in the given
sources): returns whether a wallet-relevant change occurred and the
post-scan wallet state. -/
abbrev WalletProcess := Wallet → Block → Bool × Wallet

/-- `block_connected` (src/store.rs lines 134-149): one storage
transaction; scan the block with the wallet; if the scan reports a change,
stage the updated UTXO set (`?`); unconditionally stage the processed-block
marker as this block's header hash (`?`); commit. -/
def ContentStore.block_connected (process : WalletProcess) (cs : ContentStore)
    (block : Block) (height : Nat) :
    RunResult Unit × ContentStore × List Event :=
  let pr := process cs.wallet block
  let changed := pr.fst
  let w1 := pr.snd
  let cs1 := { cs with wallet := w1 }
  if changed then
    if cs.faults.coins_fault then
      (RunResult.err Error.storage, cs1, [Event.txBegin])
    else
      if cs.faults.processed_fault then
        (RunResult.err Error.storage, cs1, [Event.txBegin, Event.storeCoins w1.coins])
      else
        let tx2 : Txn := { coins := some w1.coins,
                           processed := some block.header.bitcoin_hash,
                           accounts := [], txouts := [] }
        (RunResult.ok (), { cs1 with db := tx2.apply cs1.db },
         [Event.txBegin, Event.storeCoins w1.coins,
          Event.storeProcessed block.header.bitcoin_hash, Event.txCommit])
  else
    if cs.faults.processed_fault then
      (RunResult.err Error.storage, cs1, [Event.txBegin])
    else
      let tx2 : Txn := { coins := none, processed := some block.header.bitcoin_hash,
                         accounts := [], txouts := [] }
      (RunResult.ok (), { cs1 with db := tx2.apply cs1.db },
       [Event.txBegin, Event.storeProcessed block.header.bitcoin_hash, Event.txCommit])

/-- `add_header` (src/store.rs lines 152-155): logging only; returns `Ok`
and touches nothing. -/
def ContentStore.add_header (cs : ContentStore) (height : Nat) (header : BlockHeader) :
    RunResult Unit × ContentStore × List Event :=
  (RunResult.ok (), cs, [])

/-- The wallet's rollback of the UTXO-set changes attributed to one block
hash (in the wallet module, not in the given sources). -/
abbrev WalletUnwind := Wallet → Hash → Wallet

/-- `unwind_tip` (src/store.rs lines 158-167): one storage transaction;
stage the processed-block marker as the header's *predecessor* hash (`?`);
commit; then roll the wallet back for the unwound block's hash. -/
def ContentStore.unwind_tip (wunwind : WalletUnwind) (cs : ContentStore)
    (header : BlockHeader) :
    RunResult Unit × ContentStore × List Event :=
  if cs.faults.processed_fault then
    (RunResult.err Error.storage, cs, [Event.txBegin])
  else
    let tx1 : Txn := { coins := none, processed := some header.prev_blockhash,
                       accounts := [], txouts := [] }
    let cs1 := { cs with db := tx1.apply cs.db }
    let cs2 := { cs1 with wallet := wunwind cs1.wallet header.bitcoin_hash }
    (RunResult.ok (), cs2,
     [Event.txBegin, Event.storeProcessed header.prev_blockhash, Event.txCommit,
      Event.walletRollback header.bitcoin_hash])

/-! ## Trace predicates and helper lemmas -/

/-- How many commits a trace performs. -/
def countCommits : List Event → Nat
  | [] => 0
  | Event.txCommit :: rest => countCommits rest + 1
  | _ :: rest => countCommits rest

/-- Whether every wallet rollback in the trace occurs strictly after some
commit (`seen` records whether a commit has occurred so far). -/
def rollbackOnlyAfterCommit : Bool → List Event → Bool
  | _, [] => true
  | _, Event.txCommit :: rest => rollbackOnlyAfterCommit true rest
  | seen, Event.walletRollback _ :: rest => seen && rollbackOnlyAfterCommit seen rest
  | seen, _ :: rest => rollbackOnlyAfterCommit seen rest

/-- Whether every broadcast in the trace occurs strictly after some commit. -/
def broadcastOnlyAfterCommit : Bool → List Event → Bool
  | _, [] => true
  | _, Event.txCommit :: rest => broadcastOnlyAfterCommit true rest
  | seen, Event.broadcastTx _ :: rest => seen && broadcastOnlyAfterCommit seen rest
  | seen, _ :: rest => broadcastOnlyAfterCommit seen rest

/-- How many broadcasts a trace performs. -/
def countBroadcasts : List Event → Nat
  | [] => 0
  | Event.broadcastTx _ :: rest => countBroadcasts rest + 1
  | _ :: rest => countBroadcasts rest

/-- Summing a sublist of naturals never exceeds summing the whole list. -/
theorem sum_filter_map_le (l : List Utxo) (p : Utxo → Bool) :
    ((l.filter p).map Utxo.value).sum ≤ (l.map Utxo.value).sum := by
  induction l with
  | nil => simp
  | cons x xs ih =>
    by_cases hx : p x
    · simp [hx]
      omega
    · simp [hx]
      omega

/-! ## Shared concrete fixtures for witnesses and counterexamples -/

/-- A receiving account at `(0,0)` whose generator always succeeds. -/
def acctRecv : Account := { keyIndex := 5, gen := fun i => some (100 + i) }

/-- A change account. -/
def acctChange : Account := { keyIndex := 0, gen := fun i => some (200 + i) }

/-- A funding account. -/
def acctFund : Account := { keyIndex := 0, gen := fun i => some (300 + i) }

/-- A wallet master with receiving, change and funding accounts. -/
def masterT : Master :=
  { accounts := [((0, 0), acctRecv), ((0, 1), acctChange), ((1, 0), acctFund)] }

/-- A concrete wallet: two UTXOs, maturity policy of one confirmation. -/
def walletT : Wallet :=
  { utxos := [{ value := 1000, confirming := 7 }, { value := 500, confirming := 8 }],
    maturity := 1, master := masterT }

/-- A concrete trunk of ten headers. -/
def trunkT : Trunk :=
  { len := 10,
    get_height := fun h => if h = 7 then some 3 else if h = 8 then some 9 else none,
    get_tip := some { hashVal := 9, prev_blockhash := 8 } }

/-- No storage faults. -/
def faultsNone : DbFaults :=
  { account_fault := false, coins_fault := false, processed_fault := false,
    txout_fault := false }

/-- A concrete committed store state. -/
def dbT : DbState := { processed := some 42, coins := [], accounts := [], txouts := [] }

/-- A concrete content store with a bound broadcast channel. -/
def csT : ContentStore :=
  { trunk := trunkT, db := dbT, faults := faultsNone, wallet := walletT,
    txout := some 1, stopped := false }

/-! ## Claim theorems -/

/-- C3: for every tweaked public key (33 bytes) and 16-bit term,
`funding_script` is exactly push-int `term`, `OP_CSV`, `OP_DROP`, the
33-byte push of the key, `OP_CHECKSIG`; `funding_address` is the P2WSH
address of exactly that script; and the construction is deterministic:
equal inputs yield byte-identical script and address. -/
theorem funding_script_and_address_exact (pk : PublicKey) (term : Nat)
    (hlen : pk.bytes.length = 33) (hterm : term < 65536) :
    ContentStore.funding_script pk term
      = Builder.push_int Builder.new (Int.ofNat term)
        ++ [opCSV, opDROP, 33] ++ pk.bytes ++ [opCHECKSIG]
    ∧ ContentStore.funding_address pk term
      = Address.p2wsh (ContentStore.funding_script pk term) Network.bitcoin
    ∧ ∀ pk2 term2, pk2 = pk → term2 = term →
        ContentStore.funding_script pk2 term2 = ContentStore.funding_script pk term
        ∧ ContentStore.funding_address pk2 term2 = ContentStore.funding_address pk term := by
  refine ⟨?_, rfl, ?_⟩
  · simp [ContentStore.funding_script, Builder.push_opcode, Builder.push_slice,
      Builder.into_script, PublicKey.to_bytes, pushPrefix, hlen]
  · rintro pk2 term2 rfl rfl
    exact ⟨rfl, rfl⟩

/-- A representative 33-byte public key. -/
def pkT : PublicKey := { bytes := List.replicate 33 2 }

/-- Witness for C3 at a concrete 33-byte key and term 3. -/
theorem funding_script_and_address_exact_witness :
    pkT.bytes.length = 33 ∧ (3 : Nat) < 65536
    ∧ ContentStore.funding_script pkT 3
      = Builder.push_int Builder.new (Int.ofNat 3)
        ++ [opCSV, opDROP, 33] ++ pkT.bytes ++ [opCHECKSIG] :=
  ⟨by simp [pkT], by decide,
   (funding_script_and_address_exact pkT 3 (by simp [pkT]) (by decide)).1⟩

/-- C8: `balance()` returns the pair of the wallet's total UTXO-value sum
and the sum restricted to UTXOs mature under the trunk's current tip with
confirming heights looked up through the trunk at call time; the available
component never exceeds the total.  (`balance` takes the store by shared
reference in the source, so it cannot mutate any state; its embedding is a
pure function of the store.) -/
theorem balance_total_and_available (cs : ContentStore) :
    ContentStore.balance cs
      = [(cs.wallet.utxos.map Utxo.value).sum,
         ((cs.wallet.utxos.filter
             (fun u => u.mature cs.wallet.maturity cs.trunk.len cs.trunk.get_height)).map
            Utxo.value).sum]
    ∧ cs.wallet.available_balance cs.trunk.len cs.trunk.get_height ≤ cs.wallet.balance := by
  refine ⟨rfl, ?_⟩
  simpa [Wallet.available_balance, Wallet.balance] using
    sum_filter_map_le cs.wallet.utxos
      (fun u => u.mature cs.wallet.maturity cs.trunk.len cs.trunk.get_height)

/-- C9: `add_header(height, header)` returns `Ok` and performs no state
mutation at all: the store (wallet, durable contents, marker, every field)
is returned unchanged and the event trace is empty. -/
theorem add_header_noop (cs : ContentStore) (height : Nat) (header : BlockHeader) :
    ContentStore.add_header cs height header = (RunResult.ok (), cs, []) := rfl

/-- C10: `deposit_address()` has no typed-error return path: a missing
`(0,0)` account or a failing next-key allocation panics; on success it
returns the newly allocated key's address and advances that account's key
index, with no storage transaction (empty event trace, store untouched). -/
theorem deposit_address_panics_or_allocates (cs : ContentStore) :
    (∀ e, (ContentStore.deposit_address cs).1 ≠ RunResult.err e)
    ∧ (Master.get cs.wallet.master (0, 0) = none →
        ContentStore.deposit_address cs
          = (RunResult.panicked "can not find 0/0 account", cs, []))
    ∧ (∀ acct, Master.get cs.wallet.master (0, 0) = some acct →
        acct.gen acct.keyIndex = none →
        ContentStore.deposit_address cs
          = (RunResult.panicked "can not generate receiver address in 0/0", cs, []))
    ∧ (∀ acct addr, Master.get cs.wallet.master (0, 0) = some acct →
        acct.gen acct.keyIndex = some addr →
        ContentStore.deposit_address cs
          = (RunResult.ok addr,
             { cs with wallet := { cs.wallet with
                 master := cs.wallet.master.set (0, 0)
                   { acct with keyIndex := acct.keyIndex + 1 } } },
             [])) := by
  refine ⟨?_, ?_, ?_, ?_⟩
  · intro e
    simp only [ContentStore.deposit_address]
    split
    · simp
    · split
      · simp
      · simp
  · intro hm
    simp only [ContentStore.deposit_address]
    rw [hm]
  · intro acct hm hk
    simp only [ContentStore.deposit_address]
    rw [hm]
    simp [Account.next_key, hk]
  · intro acct addr hm hk
    simp only [ContentStore.deposit_address]
    rw [hm]
    simp [Account.next_key, hk]

/-- Witness for C10: at the concrete store, the `(0,0)` account is present,
key 5 derives address 105, and `deposit_address` allocates it. -/
theorem deposit_address_panics_or_allocates_witness :
    Master.get csT.wallet.master (0, 0) = some acctRecv
    ∧ acctRecv.gen acctRecv.keyIndex = some 105
    ∧ ContentStore.deposit_address csT
      = (RunResult.ok 105,
         { csT with wallet := { csT.wallet with
             master := csT.wallet.master.set (0, 0)
               { acctRecv with keyIndex := acctRecv.keyIndex + 1 } } },
         []) :=
  ⟨rfl, rfl, (deposit_address_panics_or_allocates csT).2.2.2 acctRecv 105 rfl rfl⟩

/-- A concrete wallet scan that reports a change and absorbs one output. -/
def processT : WalletProcess := fun w b =>
  (true, { w with utxos := w.utxos ++ [{ value := 50, confirming := b.header.bitcoin_hash }] })

/-- A concrete wallet scan that reports no change. -/
def procIdem : WalletProcess := fun w _ => (false, w)

/-- A concrete wallet rollback that drops every UTXO. -/
def unwindT : WalletUnwind := fun w _ => { w with utxos := [] }

/-- A concrete block extending the processed marker of `csT`. -/
def blockT : Block :=
  { header := { hashVal := 55, prev_blockhash := 42 }, txdata := [] }

/-- A concrete block whose hash equals the processed marker of `csT`. -/
def blockMark : Block :=
  { header := { hashVal := 42, prev_blockhash := 41 }, txdata := [] }

/-- The header of `blockT`. -/
def headerT : BlockHeader := { hashVal := 55, prev_blockhash := 42 }

/-- C1: every `block_connected(block, height)` call that returns `Ok`
performed exactly one storage transaction whose trace stages the UTXO set
if and only if the wallet scan reported a change, unconditionally stages
the processed-block marker as the block header's hash, and commits exactly
once; the committed state carries that marker and the updated coins iff
the scan reported a change. -/
theorem block_connected_commits_scan_and_marker (process : WalletProcess)
    (cs : ContentStore) (block : Block) (height : Nat)
    (hok : (ContentStore.block_connected process cs block height).1 = RunResult.ok ()) :
    (ContentStore.block_connected process cs block height).2.2
      = [Event.txBegin]
        ++ (if (process cs.wallet block).1 then
              [Event.storeCoins (process cs.wallet block).2.coins] else [])
        ++ [Event.storeProcessed block.header.bitcoin_hash, Event.txCommit]
    ∧ (ContentStore.block_connected process cs block height).2.1.db.processed
        = some block.header.bitcoin_hash
    ∧ (ContentStore.block_connected process cs block height).2.1.db.coins
        = (if (process cs.wallet block).1 then (process cs.wallet block).2.coins
           else cs.db.coins)
    ∧ countCommits (ContentStore.block_connected process cs block height).2.2 = 1 := by
  cases hchg : (process cs.wallet block).1 with
  | false =>
    cases hpf : cs.faults.processed_fault with
    | true =>
      rw [ContentStore.block_connected] at hok
      simp [hchg, hpf] at hok
    | false =>
      rw [ContentStore.block_connected]
      simp [hchg, hpf, Txn.apply, countCommits]
  | true =>
    cases hcf : cs.faults.coins_fault with
    | true =>
      rw [ContentStore.block_connected] at hok
      simp [hchg, hcf] at hok
    | false =>
      cases hpf : cs.faults.processed_fault with
      | true =>
        rw [ContentStore.block_connected] at hok
        simp [hchg, hcf, hpf] at hok
      | false =>
        rw [ContentStore.block_connected]
        simp [hchg, hcf, hpf, Txn.apply, countCommits]

/-- Witness for C1: the concrete store accepts `blockT` and commits its
marker. -/
theorem block_connected_commits_scan_and_marker_witness :
    (ContentStore.block_connected processT csT blockT 1).1 = RunResult.ok ()
    ∧ (ContentStore.block_connected processT csT blockT 1).2.1.db.processed
        = some blockT.header.bitcoin_hash :=
  ⟨rfl, (block_connected_commits_scan_and_marker processT csT blockT 1 rfl).2.1⟩

/-- C2: `unwind_tip(header)` stages the marker as the header's predecessor
hash and commits strictly before the wallet rollback for the unwound
block's hash becomes visible: in every trace a rollback only occurs after
a commit, and on `Ok` the trace is exactly begin, store-marker(predecessor),
commit, rollback(header hash), with the committed marker the predecessor
hash and the wallet rolled back. -/
theorem unwind_tip_commit_precedes_rollback (wunwind : WalletUnwind)
    (cs : ContentStore) (header : BlockHeader) :
    rollbackOnlyAfterCommit false (ContentStore.unwind_tip wunwind cs header).2.2 = true
    ∧ ((ContentStore.unwind_tip wunwind cs header).1 = RunResult.ok () →
        (ContentStore.unwind_tip wunwind cs header).2.2
          = [Event.txBegin, Event.storeProcessed header.prev_blockhash, Event.txCommit,
             Event.walletRollback header.bitcoin_hash]
        ∧ (ContentStore.unwind_tip wunwind cs header).2.1.db.processed
            = some header.prev_blockhash
        ∧ (ContentStore.unwind_tip wunwind cs header).2.1.wallet
            = wunwind cs.wallet header.bitcoin_hash) := by
  cases hpf : cs.faults.processed_fault with
  | true =>
    rw [ContentStore.unwind_tip]
    simp [hpf, rollbackOnlyAfterCommit]
  | false =>
    rw [ContentStore.unwind_tip]
    simp [hpf, rollbackOnlyAfterCommit, Txn.apply]

/-- Witness for C2: unwinding `headerT` on the concrete store succeeds and
produces the commit-then-rollback trace. -/
theorem unwind_tip_commit_precedes_rollback_witness :
    (ContentStore.unwind_tip unwindT csT headerT).1 = RunResult.ok ()
    ∧ (ContentStore.unwind_tip unwindT csT headerT).2.2
      = [Event.txBegin, Event.storeProcessed headerT.prev_blockhash, Event.txCommit,
         Event.walletRollback headerT.bitcoin_hash] :=
  ⟨rfl, ((unwind_tip_commit_precedes_rollback unwindT csT headerT).2 rfl).1⟩

/-- C7: when the block's hash already equals the processed-block marker and
the wallet scan is idempotent on this already-absorbed block (the wallet
contract: no wallet-relevant change occurs), redelivering the block leaves
the wallet balance and the processed-block marker unchanged. -/
theorem block_connected_idempotent_on_processed_block (process : WalletProcess)
    (cs : ContentStore) (block : Block) (height : Nat)
    (hmark : cs.db.processed = some block.header.bitcoin_hash)
    (hidem : process cs.wallet block = (false, cs.wallet)) :
    (ContentStore.block_connected process cs block height).2.1.wallet.balance
      = cs.wallet.balance
    ∧ (ContentStore.block_connected process cs block height).2.1.db.processed
      = cs.db.processed := by
  cases hpf : cs.faults.processed_fault with
  | true =>
    rw [ContentStore.block_connected]
    simp [hidem, hpf]
  | false =>
    rw [ContentStore.block_connected]
    simp [hidem, hpf, Txn.apply, hmark]

/-- Witness for C7: redelivering the already-processed `blockMark` to the
concrete store keeps balance and marker. -/
theorem block_connected_idempotent_on_processed_block_witness :
    csT.db.processed = some blockMark.header.bitcoin_hash
    ∧ procIdem csT.wallet blockMark = (false, csT.wallet)
    ∧ (ContentStore.block_connected procIdem csT blockMark 3).2.1.db.processed
        = csT.db.processed :=
  ⟨rfl, rfl,
   (block_connected_idempotent_on_processed_block procIdem csT blockMark 3 rfl rfl).2⟩

/-- Concrete fund arguments. -/
def fargsT : FundArgs :=
  { id := 5, term := 6, amount := 1000, fee_per_vbyte := 1, passphrase := "p" }

/-- Concrete withdraw arguments. -/
def wargsT : WithdrawArgs :=
  { passphrase := "p", address := 99, fee_per_vbyte := 1, amount := some 100 }

/-- A wallet funding builder that always succeeds. -/
def wfundT : WalletFund := fun w _ => Except.ok (9, 77, 10, w)

/-- A wallet funding builder that always fails with a wallet error. -/
def wfundErr : WalletFund := fun _ _ => Except.error (Error.wallet 3)

/-- A wallet withdrawal builder that always succeeds. -/
def wwithdrawT : WalletWithdraw := fun w _ => Except.ok (11, 2, w)

/-- C4: for both `fund` and `withdraw`, a broadcast only ever occurs after
the storage commit; with no bound channel nothing is broadcast; binding or
not binding the channel changes neither the result nor the persisted state
(channel absence never fails the operation); and a successful call with a
bound channel broadcasts the persisted transaction right after the commit. -/
theorem fund_withdraw_broadcast_discipline (wfund : WalletFund)
    (wwithdraw : WalletWithdraw) (cs : ContentStore) (fargs : FundArgs)
    (wargs : WithdrawArgs) :
    broadcastOnlyAfterCommit false (ContentStore.fund wfund cs fargs).2.2 = true
    ∧ broadcastOnlyAfterCommit false (ContentStore.withdraw wwithdraw cs wargs).2.2 = true
    ∧ (cs.txout = none →
        countBroadcasts (ContentStore.fund wfund cs fargs).2.2 = 0
        ∧ countBroadcasts (ContentStore.withdraw wwithdraw cs wargs).2.2 = 0)
    ∧ (∀ ch,
        (ContentStore.fund wfund { cs with txout := some ch } fargs).1
          = (ContentStore.fund wfund { cs with txout := none } fargs).1
        ∧ (ContentStore.fund wfund { cs with txout := some ch } fargs).2.1.db
          = (ContentStore.fund wfund { cs with txout := none } fargs).2.1.db
        ∧ (ContentStore.withdraw wwithdraw { cs with txout := some ch } wargs).1
          = (ContentStore.withdraw wwithdraw { cs with txout := none } wargs).1
        ∧ (ContentStore.withdraw wwithdraw { cs with txout := some ch } wargs).2.1.db
          = (ContentStore.withdraw wwithdraw { cs with txout := none } wargs).2.1.db)
    ∧ (∀ t f fee ch, (ContentStore.fund wfund cs fargs).1 = RunResult.ok (t, f, fee) →
        cs.txout = some ch →
        (ContentStore.fund wfund cs fargs).2.2
          = [Event.txBegin, Event.storeAccount 1 0, Event.storeTxout t, Event.txCommit,
             Event.broadcastTx t])
    ∧ (∀ t fee ch, (ContentStore.withdraw wwithdraw cs wargs).1 = RunResult.ok (t, fee) →
        cs.txout = some ch →
        (ContentStore.withdraw wwithdraw cs wargs).2.2
          = [Event.txBegin, Event.storeAccount 0 1, Event.storeTxout t, Event.txCommit,
             Event.broadcastTx t]) := by
  refine ⟨?_, ?_, ?_, ?_, ?_, ?_⟩
  · cases hwf : wfund cs.wallet fargs with
    | error e => simp [ContentStore.fund, hwf, broadcastOnlyAfterCommit]
    | ok q =>
      obtain ⟨t, f, fee, w1⟩ := q
      cases hmg : Master.get w1.master (1, 0) with
      | none => simp [ContentStore.fund, hwf, hmg, broadcastOnlyAfterCommit]
      | some acct =>
        cases haf : cs.faults.account_fault with
        | true => simp [ContentStore.fund, hwf, hmg, haf, broadcastOnlyAfterCommit]
        | false =>
          cases htf : cs.faults.txout_fault with
          | true => simp [ContentStore.fund, hwf, hmg, haf, htf, broadcastOnlyAfterCommit]
          | false =>
            cases hto : cs.txout with
            | none =>
              simp [ContentStore.fund, hwf, hmg, haf, htf, hto, broadcastOnlyAfterCommit]
            | some ch =>
              simp [ContentStore.fund, hwf, hmg, haf, htf, hto, broadcastOnlyAfterCommit]
  · cases hwf : wwithdraw cs.wallet wargs with
    | error e => simp [ContentStore.withdraw, hwf, broadcastOnlyAfterCommit]
    | ok q =>
      obtain ⟨t, fee, w1⟩ := q
      cases hmg : Master.get w1.master (0, 1) with
      | none => simp [ContentStore.withdraw, hwf, hmg, broadcastOnlyAfterCommit]
      | some acct =>
        cases haf : cs.faults.account_fault with
        | true => simp [ContentStore.withdraw, hwf, hmg, haf, broadcastOnlyAfterCommit]
        | false =>
          cases htf : cs.faults.txout_fault with
          | true => simp [ContentStore.withdraw, hwf, hmg, haf, htf, broadcastOnlyAfterCommit]
          | false =>
            cases hto : cs.txout with
            | none =>
              simp [ContentStore.withdraw, hwf, hmg, haf, htf, hto, broadcastOnlyAfterCommit]
            | some ch =>
              simp [ContentStore.withdraw, hwf, hmg, haf, htf, hto, broadcastOnlyAfterCommit]
  · intro hnone
    constructor
    · cases hwf : wfund cs.wallet fargs with
      | error e => simp [ContentStore.fund, hwf, countBroadcasts]
      | ok q =>
        obtain ⟨t, f, fee, w1⟩ := q
        cases hmg : Master.get w1.master (1, 0) with
        | none => simp [ContentStore.fund, hwf, hmg, countBroadcasts]
        | some acct =>
          cases haf : cs.faults.account_fault with
          | true => simp [ContentStore.fund, hwf, hmg, haf, countBroadcasts]
          | false =>
            cases htf : cs.faults.txout_fault with
            | true => simp [ContentStore.fund, hwf, hmg, haf, htf, countBroadcasts]
            | false => simp [ContentStore.fund, hwf, hmg, haf, htf, hnone, countBroadcasts]
    · cases hwf : wwithdraw cs.wallet wargs with
      | error e => simp [ContentStore.withdraw, hwf, countBroadcasts]
      | ok q =>
        obtain ⟨t, fee, w1⟩ := q
        cases hmg : Master.get w1.master (0, 1) with
        | none => simp [ContentStore.withdraw, hwf, hmg, countBroadcasts]
        | some acct =>
          cases haf : cs.faults.account_fault with
          | true => simp [ContentStore.withdraw, hwf, hmg, haf, countBroadcasts]
          | false =>
            cases htf : cs.faults.txout_fault with
            | true => simp [ContentStore.withdraw, hwf, hmg, haf, htf, countBroadcasts]
            | false =>
              simp [ContentStore.withdraw, hwf, hmg, haf, htf, hnone, countBroadcasts]
  · intro ch
    refine ⟨?_, ?_, ?_, ?_⟩
    · cases hwf : wfund cs.wallet fargs with
      | error e => simp [ContentStore.fund, hwf]
      | ok q =>
        obtain ⟨t, f, fee, w1⟩ := q
        cases hmg : Master.get w1.master (1, 0) with
        | none => simp [ContentStore.fund, hwf, hmg]
        | some acct =>
          cases haf : cs.faults.account_fault with
          | true => simp [ContentStore.fund, hwf, hmg, haf]
          | false =>
            cases htf : cs.faults.txout_fault with
            | true => simp [ContentStore.fund, hwf, hmg, haf, htf]
            | false => simp [ContentStore.fund, hwf, hmg, haf, htf]
    · cases hwf : wfund cs.wallet fargs with
      | error e => simp [ContentStore.fund, hwf]
      | ok q =>
        obtain ⟨t, f, fee, w1⟩ := q
        cases hmg : Master.get w1.master (1, 0) with
        | none => simp [ContentStore.fund, hwf, hmg]
        | some acct =>
          cases haf : cs.faults.account_fault with
          | true => simp [ContentStore.fund, hwf, hmg, haf]
          | false =>
            cases htf : cs.faults.txout_fault with
            | true => simp [ContentStore.fund, hwf, hmg, haf, htf]
            | false => simp [ContentStore.fund, hwf, hmg, haf, htf]
    · cases hwf : wwithdraw cs.wallet wargs with
      | error e => simp [ContentStore.withdraw, hwf]
      | ok q =>
        obtain ⟨t, fee, w1⟩ := q
        cases hmg : Master.get w1.master (0, 1) with
        | none => simp [ContentStore.withdraw, hwf, hmg]
        | some acct =>
          cases haf : cs.faults.account_fault with
          | true => simp [ContentStore.withdraw, hwf, hmg, haf]
          | false =>
            cases htf : cs.faults.txout_fault with
            | true => simp [ContentStore.withdraw, hwf, hmg, haf, htf]
            | false => simp [ContentStore.withdraw, hwf, hmg, haf, htf]
    · cases hwf : wwithdraw cs.wallet wargs with
      | error e => simp [ContentStore.withdraw, hwf]
      | ok q =>
        obtain ⟨t, fee, w1⟩ := q
        cases hmg : Master.get w1.master (0, 1) with
        | none => simp [ContentStore.withdraw, hwf, hmg]
        | some acct =>
          cases haf : cs.faults.account_fault with
          | true => simp [ContentStore.withdraw, hwf, hmg, haf]
          | false =>
            cases htf : cs.faults.txout_fault with
            | true => simp [ContentStore.withdraw, hwf, hmg, haf, htf]
            | false => simp [ContentStore.withdraw, hwf, hmg, haf, htf]
  · intro t f fee ch hok hch
    cases hwf : wfund cs.wallet fargs with
    | error e => simp [ContentStore.fund, hwf] at hok
    | ok q =>
      obtain ⟨t1, f1, fee1, w1⟩ := q
      cases hmg : Master.get w1.master (1, 0) with
      | none => simp [ContentStore.fund, hwf, hmg] at hok
      | some acct =>
        cases haf : cs.faults.account_fault with
        | true => simp [ContentStore.fund, hwf, hmg, haf] at hok
        | false =>
          cases htf : cs.faults.txout_fault with
          | true => simp [ContentStore.fund, hwf, hmg, haf, htf] at hok
          | false =>
            cases hto : cs.txout with
            | none =>
              rw [hto] at hch
              exact Option.noConfusion hch
            | some ch1 =>
              simp [ContentStore.fund, hwf, hmg, haf, htf, hto] at hok
              obtain ⟨h1, h2, h3⟩ := hok
              subst h1
              simp [ContentStore.fund, hwf, hmg, haf, htf, hto]
  · intro t fee ch hok hch
    cases hwf : wwithdraw cs.wallet wargs with
    | error e => simp [ContentStore.withdraw, hwf] at hok
    | ok q =>
      obtain ⟨t1, fee1, w1⟩ := q
      cases hmg : Master.get w1.master (0, 1) with
      | none => simp [ContentStore.withdraw, hwf, hmg] at hok
      | some acct =>
        cases haf : cs.faults.account_fault with
        | true => simp [ContentStore.withdraw, hwf, hmg, haf] at hok
        | false =>
          cases htf : cs.faults.txout_fault with
          | true => simp [ContentStore.withdraw, hwf, hmg, haf, htf] at hok
          | false =>
            cases hto : cs.txout with
            | none =>
              rw [hto] at hch
              exact Option.noConfusion hch
            | some ch1 =>
              simp [ContentStore.withdraw, hwf, hmg, haf, htf, hto] at hok
              obtain ⟨h1, h2⟩ := hok
              subst h1
              simp [ContentStore.withdraw, hwf, hmg, haf, htf, hto]

/-- Witness for C4: on the concrete store (channel bound to 1), `fund`
succeeds and broadcasts transaction 9 right after the commit. -/
theorem fund_withdraw_broadcast_discipline_witness :
    (ContentStore.fund wfundT csT fargsT).1 = RunResult.ok (9, 77, 10)
    ∧ csT.txout = some 1
    ∧ (ContentStore.fund wfundT csT fargsT).2.2
      = [Event.txBegin, Event.storeAccount 1 0, Event.storeTxout 9, Event.txCommit,
         Event.broadcastTx 9] :=
  ⟨rfl, rfl,
   (fund_withdraw_broadcast_discipline wfundT wwithdrawT csT fargsT wargsT).2.2.2.2.1
     9 77 10 1 rfl rfl⟩

/-- A concrete store whose durable layer fails the outgoing-transaction
write. -/
def csTxoutFault : ContentStore :=
  { csT with faults := { faultsNone with txout_fault := true } }

/-- Counterexample to C5: at a concrete input where only the storage step
`store_txout` fails, `fund` does not return a typed error — it panics
(the source calls `.expect(..)` on that storage step). -/
theorem fund_storage_failure_panics :
    csTxoutFault.faults.txout_fault = true
    ∧ (ContentStore.fund wfundT csTxoutFault fargsT).1
        = RunResult.panicked "can not store outgoing transaction"
    ∧ ∀ e, (ContentStore.fund wfundT csTxoutFault fargsT).1 ≠ RunResult.err e := by
  refine ⟨rfl, rfl, ?_⟩
  intro e h
  have hval : (ContentStore.fund wfundT csTxoutFault fargsT).1
      = RunResult.panicked "can not store outgoing transaction" := rfl
  rw [hval] at h
  exact RunResult.noConfusion h

/-- C5 (amended): every failing storage or wallet step of `fund`/`withdraw`
aborts the whole operation with nothing persisted (durable state unchanged,
zero commits); wallet-step and `store_account` failures surface as typed
errors, but a `store_txout` failure aborts by panic instead of a typed
error. -/
theorem fund_withdraw_failure_atomicity (wfund : WalletFund)
    (wwithdraw : WalletWithdraw) (cs : ContentStore) (fargs : FundArgs)
    (wargs : WithdrawArgs) :
    ((∃ v, (ContentStore.fund wfund cs fargs).1 = RunResult.ok v)
      ∨ ((ContentStore.fund wfund cs fargs).2.1.db = cs.db
         ∧ countCommits (ContentStore.fund wfund cs fargs).2.2 = 0))
    ∧ ((∃ v, (ContentStore.withdraw wwithdraw cs wargs).1 = RunResult.ok v)
      ∨ ((ContentStore.withdraw wwithdraw cs wargs).2.1.db = cs.db
         ∧ countCommits (ContentStore.withdraw wwithdraw cs wargs).2.2 = 0))
    ∧ (∀ e, wfund cs.wallet fargs = Except.error e →
        ContentStore.fund wfund cs fargs = (RunResult.err e, cs, []))
    ∧ (∀ e, wwithdraw cs.wallet wargs = Except.error e →
        ContentStore.withdraw wwithdraw cs wargs = (RunResult.err e, cs, []))
    ∧ (∀ t f fee w1 acct, wfund cs.wallet fargs = Except.ok (t, f, fee, w1) →
        Master.get w1.master (1, 0) = some acct →
        cs.faults.account_fault = true →
        ContentStore.fund wfund cs fargs
          = (RunResult.err Error.storage, { cs with wallet := w1 }, [Event.txBegin]))
    ∧ (∀ t f fee w1 acct, wfund cs.wallet fargs = Except.ok (t, f, fee, w1) →
        Master.get w1.master (1, 0) = some acct →
        cs.faults.account_fault = false → cs.faults.txout_fault = true →
        ContentStore.fund wfund cs fargs
          = (RunResult.panicked "can not store outgoing transaction",
             { cs with wallet := w1 }, [Event.txBegin, Event.storeAccount 1 0]))
    ∧ (∀ t fee w1 acct, wwithdraw cs.wallet wargs = Except.ok (t, fee, w1) →
        Master.get w1.master (0, 1) = some acct →
        cs.faults.account_fault = true →
        ContentStore.withdraw wwithdraw cs wargs
          = (RunResult.err Error.storage, { cs with wallet := w1 }, [Event.txBegin]))
    ∧ (∀ t fee w1 acct, wwithdraw cs.wallet wargs = Except.ok (t, fee, w1) →
        Master.get w1.master (0, 1) = some acct →
        cs.faults.account_fault = false → cs.faults.txout_fault = true →
        ContentStore.withdraw wwithdraw cs wargs
          = (RunResult.panicked "can not store outgoing transaction",
             { cs with wallet := w1 }, [Event.txBegin, Event.storeAccount 0 1])) := by
  refine ⟨?_, ?_, ?_, ?_, ?_, ?_, ?_, ?_⟩
  · cases hwf : wfund cs.wallet fargs with
    | error e => right; simp [ContentStore.fund, hwf, countCommits]
    | ok q =>
      obtain ⟨t, f, fee, w1⟩ := q
      cases hmg : Master.get w1.master (1, 0) with
      | none => right; simp [ContentStore.fund, hwf, hmg, countCommits]
      | some acct =>
        cases haf : cs.faults.account_fault with
        | true => right; simp [ContentStore.fund, hwf, hmg, haf, countCommits]
        | false =>
          cases htf : cs.faults.txout_fault with
          | true => right; simp [ContentStore.fund, hwf, hmg, haf, htf, countCommits]
          | false =>
            left
            refine ⟨(t, f, fee), ?_⟩
            cases hto : cs.txout with
            | none => simp [ContentStore.fund, hwf, hmg, haf, htf, hto]
            | some ch => simp [ContentStore.fund, hwf, hmg, haf, htf, hto]
  · cases hwf : wwithdraw cs.wallet wargs with
    | error e => right; simp [ContentStore.withdraw, hwf, countCommits]
    | ok q =>
      obtain ⟨t, fee, w1⟩ := q
      cases hmg : Master.get w1.master (0, 1) with
      | none => right; simp [ContentStore.withdraw, hwf, hmg, countCommits]
      | some acct =>
        cases haf : cs.faults.account_fault with
        | true => right; simp [ContentStore.withdraw, hwf, hmg, haf, countCommits]
        | false =>
          cases htf : cs.faults.txout_fault with
          | true => right; simp [ContentStore.withdraw, hwf, hmg, haf, htf, countCommits]
          | false =>
            left
            refine ⟨(t, fee), ?_⟩
            cases hto : cs.txout with
            | none => simp [ContentStore.withdraw, hwf, hmg, haf, htf, hto]
            | some ch => simp [ContentStore.withdraw, hwf, hmg, haf, htf, hto]
  · intro e hwf
    simp [ContentStore.fund, hwf]
  · intro e hwf
    simp [ContentStore.withdraw, hwf]
  · intro t f fee w1 acct hwf hmg haf
    simp [ContentStore.fund, hwf, hmg, haf]
  · intro t f fee w1 acct hwf hmg haf htf
    simp [ContentStore.fund, hwf, hmg, haf, htf]
  · intro t fee w1 acct hwf hmg haf
    simp [ContentStore.withdraw, hwf, hmg, haf]
  · intro t fee w1 acct hwf hmg haf htf
    simp [ContentStore.withdraw, hwf, hmg, haf, htf]

/-- Witness for C5 (amended): a failing wallet step on the concrete store
returns the typed wallet error with store and state untouched. -/
theorem fund_withdraw_failure_atomicity_witness :
    wfundErr csT.wallet fargsT = Except.error (Error.wallet 3)
    ∧ ContentStore.fund wfundErr csT fargsT = (RunResult.err (Error.wallet 3), csT, []) :=
  ⟨rfl,
   (fund_withdraw_failure_atomicity wfundErr wwithdrawT csT fargsT wargsT).2.2.1
     (Error.wallet 3) rfl⟩

/-- The concrete store with the `stopped` flag set. -/
def csStopped : ContentStore := { csT with stopped := true }

/-- Counterexample to C6: with `get_stopped()` returning `true`, both
`block_connected` and `unwind_tip` still perform a storage commit (the
handlers never consult the flag), so they are not no-ops: the processed
marker moves. -/
theorem stopped_flag_not_checked :
    ContentStore.get_stopped csStopped = true
    ∧ (ContentStore.block_connected procIdem csStopped blockT 1).2.1.db.processed
        ≠ csStopped.db.processed
    ∧ countCommits (ContentStore.block_connected procIdem csStopped blockT 1).2.2 = 1
    ∧ countCommits (ContentStore.unwind_tip unwindT csStopped headerT).2.2 = 1 := by
  exact ⟨rfl, by decide, rfl, rfl⟩

/-- C6 (amended): `block_connected` and `unwind_tip` do not consult the
`stopped` flag at all — result, durable state, wallet state and event
trace are identical for any two values of the flag (the flag is only
stored and read back by `set_stopped`/`get_stopped`). -/
theorem handlers_independent_of_stopped (process : WalletProcess)
    (wunwind : WalletUnwind) (cs : ContentStore) (block : Block) (height : Nat)
    (header : BlockHeader) (b1 b2 : Bool) :
    ((ContentStore.block_connected process { cs with stopped := b1 } block height).1
       = (ContentStore.block_connected process { cs with stopped := b2 } block height).1
     ∧ (ContentStore.block_connected process { cs with stopped := b1 } block height).2.1.db
       = (ContentStore.block_connected process { cs with stopped := b2 } block height).2.1.db
     ∧ (ContentStore.block_connected process { cs with stopped := b1 } block height).2.1.wallet
       = (ContentStore.block_connected process { cs with stopped := b2 } block height).2.1.wallet
     ∧ (ContentStore.block_connected process { cs with stopped := b1 } block height).2.2
       = (ContentStore.block_connected process { cs with stopped := b2 } block height).2.2)
    ∧ ((ContentStore.unwind_tip wunwind { cs with stopped := b1 } header).1
       = (ContentStore.unwind_tip wunwind { cs with stopped := b2 } header).1
     ∧ (ContentStore.unwind_tip wunwind { cs with stopped := b1 } header).2.1.db
       = (ContentStore.unwind_tip wunwind { cs with stopped := b2 } header).2.1.db
     ∧ (ContentStore.unwind_tip wunwind { cs with stopped := b1 } header).2.1.wallet
       = (ContentStore.unwind_tip wunwind { cs with stopped := b2 } header).2.1.wallet
     ∧ (ContentStore.unwind_tip wunwind { cs with stopped := b1 } header).2.2
       = (ContentStore.unwind_tip wunwind { cs with stopped := b2 } header).2.2) := by
  constructor
  · cases hchg : (process cs.wallet block).1 with
    | false =>
      cases hpf : cs.faults.processed_fault with
      | true => simp [ContentStore.block_connected, hchg, hpf]
      | false => simp [ContentStore.block_connected, hchg, hpf]
    | true =>
      cases hcf : cs.faults.coins_fault with
      | true => simp [ContentStore.block_connected, hchg, hcf]
      | false =>
        cases hpf : cs.faults.processed_fault with
        | true => simp [ContentStore.block_connected, hchg, hcf, hpf]
        | false => simp [ContentStore.block_connected, hchg, hcf, hpf]
  · cases hpf : cs.faults.processed_fault with
    | true => simp [ContentStore.unwind_tip, hpf]
    | false => simp [ContentStore.unwind_tip, hpf]
